import Mathlib

/- Verification of the Prescripto text-to-schedule core: a shallow embedding of
   `src/parse_text.py` and `src/schedule_creator.py`.  Strings are modelled as
   `List Char`; the regular expressions of the source are embedded as explicit
   left-to-right scanners with word-boundary tracking; clock times are minutes
   after midnight; calendar dates are integers (day numbers), so that
   `date + timedelta(days = k)` is integer addition. -/

namespace Prescripto

/-! ## Character classes and Python string primitives -/

/-- ASCII whitespace: the characters accepted by Python's `str.strip()` and by
the regex class `\s` on the ASCII text this pipeline handles. -/
def isSpaceChar (c : Char) : Bool :=
  c == ' ' || c == '\t' || c == '\n' || c == '\r' || c == '\x0b' || c == '\x0c'

/-- Word characters of the regex `\b` boundary: `[A-Za-z0-9_]`. -/
def isWordChar (c : Char) : Bool := c.isAlphanum || c == '_'

/-- Python `str.strip()`. -/
def pyStrip (l : List Char) : List Char :=
  (((l.dropWhile isSpaceChar).reverse).dropWhile isSpaceChar).reverse

/-- Line-break characters of Python `str.splitlines` other than `\n` and `\r`. -/
def isOtherBreak (c : Char) : Bool :=
  c == '\x0b' || c == '\x0c' || c == '\x1c' || c == '\x1d' || c == '\x1e' ||
  c == '\x85' || c == '\u2028' || c == '\u2029'

/-- Python `str.splitlines`.  The flag records that the previous character was a
carriage return, so that a following `\n` belongs to the same `\r\n` break; the
accumulator holds the current line reversed.  A trailing break produces no
empty final line, exactly as in Python. -/
def splitLinesAux : Bool → List Char → List Char → List (List Char)
  | _, acc, [] => if acc == [] then [] else [acc.reverse]
  | afterCR, acc, c :: rest =>
    if c == '\n' then
      if afterCR then splitLinesAux false acc rest
      else acc.reverse :: splitLinesAux false [] rest
    else if c == '\r' then acc.reverse :: splitLinesAux true [] rest
    else if isOtherBreak c then acc.reverse :: splitLinesAux false [] rest
    else splitLinesAux false (c :: acc) rest

/-- Python `str.splitlines` on a character list. -/
def pySplitLines (cs : List Char) : List (List Char) := splitLinesAux false [] cs

/-- Numeric value of a decimal digit character. -/
def digitVal (c : Char) : ℕ := c.toNat - 48

/-- Python `int(...)` on a non-empty string of decimal digits. -/
def natOfDigits (ds : List Char) : ℕ := ds.foldl (fun n c => 10 * n + digitVal c) 0

/-- Case-insensitive prefix test: the text's characters are lowered and compared
with the (already lowercase) pattern word, character by character. -/
def ciStarts : List Char → List Char → Bool
  | [], _ => true
  | _ :: _, [] => false
  | w :: ws, c :: cs => (c.toLower == w) && ciStarts ws cs

/-- Case-sensitive prefix test. -/
def listStarts : List Char → List Char → Bool
  | [], _ => true
  | _ :: _, [] => false
  | n :: ns, c :: cs => (c == n) && listStarts ns cs

/-- Python's `needle in haystack` substring test. -/
def containsSub : List Char → List Char → Bool
  | needle, [] => listStarts needle []
  | needle, c :: rest => listStarts needle (c :: rest) || containsSub needle rest

/-- Regex `\b` immediately after a match: the next character, if any, is not a
word character. -/
def boundaryAfter : List Char → Bool
  | [] => true
  | c :: _ => !isWordChar c

/-- Case-insensitive whole-word match at the current position: the lowercase
word `w` is a prefix of the text and is followed by a word boundary. -/
def wordBoundAt (w : List Char) (cs : List Char) : Bool :=
  ciStarts w cs && boundaryAfter (cs.drop w.length)

/-- Python falsy-default `x or default` on an optional string (`None` and `""`
are falsy). -/
def pyOrString (o : Option String) (dflt : String) : String :=
  match o with
  | some s => if s = "" then dflt else s
  | none => dflt

/-- Python falsy-default `x or default` on an optional integer (`None` and `0`
are falsy). -/
def pyOrNat (o : Option ℕ) (dflt : ℕ) : ℕ :=
  match o with
  | some n => if n = 0 then dflt else n
  | none => dflt

/-! ## `parse_text.py`: pattern library -/

/-- One attempt of `DOSE_RE = \b(\d-\d-\d)\b` at the current position.  `prevW`
says whether the preceding character is a word character (so `\b` fails). -/
def doseMatchAt (prevW : Bool) (cs : List Char) : Option (List Char) :=
  match cs with
  | d1 :: h1 :: d2 :: h2 :: d3 :: rest =>
    if d1.isDigit && (h1 == '-') && d2.isDigit && (h2 == '-') && d3.isDigit &&
       !prevW && boundaryAfter rest
    then some [d1, '-', d2, '-', d3] else none
  | _ => none

/-- `DOSE_RE.search`: leftmost match of `\b\d-\d-\d\b`. -/
def doseSearch (prevW : Bool) : List Char → Option (List Char)
  | [] => none
  | c :: rest =>
    match doseMatchAt prevW (c :: rest) with
    | some m => some m
    | none => doseSearch (isWordChar c) rest

/-- `DOSE_RE.search` on a string, returning the matched group. -/
def doseSearchStr (text : String) : Option String :=
  (doseSearch false text.data).map (fun l => ⟨l⟩)

/-- Unit alternation `(day|days|week|weeks)\b` of `DURATION_RE`, tried in the
regex's order; returns whether the unit starts with "week". -/
def matchUnit (cs : List Char) : Option Bool :=
  if wordBoundAt "day".data cs then some false
  else if wordBoundAt "days".data cs then some false
  else if wordBoundAt "week".data cs then some true
  else if wordBoundAt "weeks".data cs then some true
  else none

/-- One attempt of `DURATION_RE = \b(\d+)\s*(day|days|week|weeks)\b` at the
current position: a maximal digit run (greedy `\d+`, preceded by a boundary),
then `\s*`, then the unit. -/
def durationMatchAt (prevW : Bool) (cs : List Char) : Option (ℕ × Bool) :=
  match cs with
  | [] => none
  | c :: _ =>
    if c.isDigit && !prevW then
      match matchUnit ((cs.dropWhile Char.isDigit).dropWhile isSpaceChar) with
      | some isWeek => some (natOfDigits (cs.takeWhile Char.isDigit), isWeek)
      | none => none
    else none

/-- `DURATION_RE.search`: leftmost match, as (number, unit-is-week). -/
def durationSearch (prevW : Bool) : List Char → Option (ℕ × Bool)
  | [] => none
  | c :: rest =>
    match durationMatchAt prevW (c :: rest) with
    | some r => some r
    | none => durationSearch (isWordChar c) rest

/-- The alternatives of `TIME_RE`, in the source's `TIME_WORDS` order. -/
def timeWords : List (List Char) :=
  ["morning".data, "noon".data, "afternoon".data, "aft".data,
   "evening".data, "eve".data, "night".data]

/-- One attempt of `TIME_RE` at the current position: first alternative (in
order) that matches case-insensitively with a `\b` on both sides.  The result
is the lowercase word, which equals Python's `m.group(1).lower()`. -/
def timeMatchAt (prevW : Bool) (cs : List Char) : Option (List Char) :=
  if prevW then none
  else timeWords.findSome? (fun w => if wordBoundAt w cs then some w else none)

/-- `TIME_RE.finditer`, lowered groups in order.  The scanner advances one
character at a time; this equals the regex engine's jump past each match
because every alternative consists of letters only, so no position strictly
inside a match has the word boundary the pattern requires. -/
def timeFindAll (prevW : Bool) : List Char → List (List Char)
  | [] => []
  | c :: rest =>
    match timeMatchAt prevW (c :: rest) with
    | some w => w :: timeFindAll (isWordChar c) rest
    | none => timeFindAll (isWordChar c) rest

/-! ## `parse_text.py`: medicine-name heuristic -/

/-- Token characters of `[A-Za-z][A-Za-z\-]{2,}` after the first letter. -/
def isTokChar (c : Char) : Bool := c.isAlpha || c == '-'

/-- `re.findall(r"[A-Za-z][A-Za-z\-]{2,}", line)`: maximal runs of letters and
hyphens starting at a letter, kept when their length is at least 3.  The state
is the current run, reversed, or `none` outside a run; a run too short to be a
token cannot contain a later, longer token start, so discarding it whole equals
the regex engine's position-by-position retry. -/
def findTokensAux : Option (List Char) → List Char → List (List Char)
  | run, [] =>
    match run with
    | some r => if 3 ≤ r.length then [r.reverse] else []
    | none => []
  | run, c :: rest =>
    match run with
    | some r =>
      if isTokChar c then findTokensAux (some (c :: r)) rest
      else (if 3 ≤ r.length then [r.reverse] else []) ++ findTokensAux none rest
    | none =>
      if c.isAlpha then findTokensAux (some [c]) rest else findTokensAux none rest

/-- The stop-word blacklist of `_guess_medicine_names`. -/
def blacklist : List (List Char) :=
  ["morning".data, "afternoon".data, "evening".data, "night".data, "daily".data,
   "tablet".data, "tabs".data, "capsule".data, "mg".data, "ml".data]

/-- Order-preserving deduplication (Python's seen-set loop). -/
def dedupKeepOrder (l : List (List Char)) : List (List Char) :=
  l.foldl (fun out m => if out.contains m then out else out ++ [m]) []

/-- `_guess_medicine_names`: per non-empty line, the first token that survives
the blacklist; deduplicated; first guess only. -/
def _guess_medicine_names (text : String) : List String :=
  let meds := (pySplitLines text.data).filterMap (fun line =>
    let l := pyStrip line
    if l = [] then none
    else
      let tokens := findTokensAux none l
      let cand := tokens.filter (fun t => !(blacklist.contains (t.map Char.toLower)))
      cand.head?)
  ((dedupKeepOrder meds).take 1).map (fun l => (⟨l⟩ : String))

/-! ## `parse_text.py`: times and duration -/

/-- Normalisation of one time keyword (`afternoon`/`aft` to `noon`, `eve` to
`evening`). -/
def normTimeToken (t : List Char) : List Char :=
  if t == "afternoon".data || t == "aft".data then "noon".data
  else if t == "eve".data then "evening".data
  else t

/-- `_parse_times`: all `TIME_RE` hits, lowered, normalised, deduplicated in
order of first occurrence. -/
def _parse_times (text : String) : List String :=
  let hits := timeFindAll false text.data
  (dedupKeepOrder (hits.map normTimeToken)).map (fun l => (⟨l⟩ : String))

/-- `_parse_duration_days`: first `DURATION_RE` match, weeks scaled by 7. -/
def _parse_duration_days (text : String) : Option ℕ :=
  match durationSearch false text.data with
  | none => none
  | some (n, isWeek) => some (if isWeek then n * 7 else n)

/-! ## `parse_text.py`: single-item parser -/

/-- Python `"...".split("-")`. -/
def splitHyphen : List Char → List (List Char)
  | [] => [[]]
  | c :: rest =>
    if c = '-' then [] :: splitHyphen rest
    else
      match splitHyphen rest with
      | [] => [[c]]
      | g :: gs => (c :: g) :: gs

/-- Python `"-".join(...)`. -/
def joinHyphen : List (List Char) → List Char
  | [] => []
  | [x] => x
  | x :: xs => x ++ '-' :: joinHyphen xs

/-- The slot names used by the digit-position inference. -/
def slot_names : List String := ["morning", "noon", "night"]

/-- The loop `for idx, p in enumerate(parts[:3]): if p == "1":
times.append(slot_names[idx])`.  The list indexing is embedded with `get?`, so
an out-of-range index (Python's `IndexError`) is `none`. -/
def inferLoop : ℕ → List (List Char) → List String → Option (List String)
  | _, [], acc => some acc
  | idx, p :: rest, acc =>
    if p = "1".data then
      match slot_names.get? idx with
      | some s => inferLoop (idx + 1) rest (acc ++ [s])
      | none => none
    else inferLoop (idx + 1) rest acc

/-- Digit-position inference from a dose string present without time keywords. -/
def inferTimesFromDose (dose : String) : Option (List String) :=
  inferLoop 0 ((splitHyphen dose.data).take 3) []

/-- Dose synthesis when times are present without a dose: digit 1 for each of
the three canonical slots found among the keywords. -/
def synthDoseFromTimes (times : List String) : String :=
  ⟨joinHyphen (slot_names.map (fun s => if times.contains s then "1".data else "0".data))⟩

/-- The structured record returned by `parse_prescription_text` (the dict with
keys medicine, dose, time, duration_days). -/
structure ParseResult where
  medicine : String
  dose : String
  time : List String
  duration_days : ℕ
deriving DecidableEq

/-- Step "if dose is present but times missing, infer from dose pattern". -/
def resolveTimes (dose : Option String) (times0 : List String) : Option (List String) :=
  match dose, times0 with
  | some d, [] => inferTimesFromDose d
  | _, _ => some times0

/-- Assembly of the result record: dose synthesis when times are present
without a dose, then the falsy defaults `medicine or "Unknown"`,
`dose or "0-0-0"`, `duration_days or 1`. -/
def finishParse (medicine : Option String) (dose : Option String)
    (duration : Option ℕ) (times : List String) : ParseResult :=
  let dose2 := if dose = none ∧ times ≠ [] then some (synthDoseFromTimes times) else dose
  { medicine := pyOrString medicine "Unknown"
    dose := pyOrString dose2 "0-0-0"
    time := times
    duration_days := pyOrNat duration 1 }

/-- `parse_prescription_text`.  `none` models an uncaught exception; the only
candidate is the `slot_names[idx]` indexing inside the inference loop. -/
def parse_prescription_text (text : String) : Option ParseResult :=
  (resolveTimes (doseSearchStr text) (_parse_times text)).map
    (finishParse (_guess_medicine_names text).head? (doseSearchStr text)
      (_parse_duration_days text))

/-! ## `parse_text.py`: multi-item segmentation -/

/-- Removal of a leading `\s*\d+\)\s*` ordinal marker, when present. -/
def stripOrdinal (l : List Char) : List Char :=
  let r1 := l.dropWhile isSpaceChar
  let ds := r1.takeWhile Char.isDigit
  match ds, r1.dropWhile Char.isDigit with
  | _ :: _, ')' :: r3 => r3.dropWhile isSpaceChar
  | _, _ => l

/-- One alternative of `^(TAB\.?|CAP\.?|SYR\.?|INJ\.?)\s*`: the word matched
case-insensitively, a greedy optional dot, then `\s*` removed. -/
def formWordAt (w : List Char) (cs : List Char) : Option (List Char) :=
  if ciStarts w cs then
    let r := cs.drop w.length
    let r2 := match r with
              | '.' :: t => t
              | _ => r
    some (r2.dropWhile isSpaceChar)
  else none

/-- Removal of a leading dosage-form word, first alternative wins. -/
def stripFormWord (cs : List Char) : List Char :=
  match formWordAt "tab".data cs with
  | some r => r
  | none =>
    match formWordAt "cap".data cs with
    | some r => r
    | none =>
      match formWordAt "syr".data cs with
      | some r => r
      | none =>
        match formWordAt "inj".data cs with
        | some r => r
        | none => cs

/-- State of the `\s{2,}` collapsing scan: outside whitespace, one pending
whitespace character, or inside an already-collapsed run. -/
inductive CollapseSt where
  | norm : CollapseSt
  | one : Char → CollapseSt
  | many : CollapseSt

/-- `re.sub(r"\s{2,}", " ", ...)`: a run of two or more whitespace characters
becomes one space; a lone whitespace character is kept unchanged. -/
def collapseMultiAux : CollapseSt → List Char → List Char
  | .norm, [] => []
  | .one s, [] => [s]
  | .many, [] => []
  | .norm, c :: rest =>
    if isSpaceChar c then collapseMultiAux (.one c) rest
    else c :: collapseMultiAux .norm rest
  | .one s, c :: rest =>
    if isSpaceChar c then ' ' :: collapseMultiAux .many rest
    else s :: c :: collapseMultiAux .norm rest
  | .many, c :: rest =>
    if isSpaceChar c then collapseMultiAux .many rest
    else c :: collapseMultiAux .norm rest

/-- `_clean_medicine_name`: ordinal marker removed then stripped, dosage-form
word removed then stripped, inner whitespace runs collapsed. -/
def _clean_medicine_name (l : List Char) : List Char :=
  collapseMultiAux .norm (pyStrip (stripFormWord (pyStrip (stripOrdinal l))))

/-- Trailing `\n` characters given back when the greedy `\s*` before `.+` must
backtrack at end of text. -/
def stripTrailingNL (w : List Char) : List Char :=
  (w.reverse.dropWhile (fun c => c == '\n')).reverse

/-- One attempt of `ITEM_START_RE = ^\s*(\d+)\)\s*(.+)$` (MULTILINE) at a
line-start position, returning the match length.  After `)` the greedy `\s*`
may cross newlines; when nothing but whitespace remains, it backtracks just
far enough for `.+` to take the final non-newline character. -/
def itemMatchLen (cs : List Char) : Option ℕ :=
  let ws1 := cs.takeWhile isSpaceChar
  let r1 := cs.dropWhile isSpaceChar
  let ds := r1.takeWhile Char.isDigit
  match ds, r1.dropWhile Char.isDigit with
  | _ :: _, ')' :: r3 =>
    let w := r3.takeWhile isSpaceChar
    match r3.dropWhile isSpaceChar with
    | _ :: _ =>
      let content := (r3.dropWhile isSpaceChar).takeWhile (fun c => !(c == '\n'))
      some (ws1.length + ds.length + 1 + w.length + content.length)
    | [] =>
      let w2 := stripTrailingNL w
      if w2 = [] then none else some (ws1.length + ds.length + 1 + w2.length)
  | _, _ => none

/-- `ITEM_START_RE.finditer`: match start positions, scanning left to right and
resuming after each match (`finditer` yields non-overlapping matches).  The
fuel begins at `length + 1` and the position advances at every step, so the
fuel never runs out. -/
def findItemStartsAux : ℕ → ℕ → Bool → List Char → List ℕ
  | 0, _, _, _ => []
  | _ + 1, _, _, [] => []
  | fuel + 1, p, atLS, c :: rest =>
    if atLS then
      match itemMatchLen (c :: rest) with
      | some len => p :: findItemStartsAux fuel (p + len) false (List.drop len (c :: rest))
      | none => findItemStartsAux fuel (p + 1) (c == '\n') rest
    else findItemStartsAux fuel (p + 1) (c == '\n') rest

/-- Consecutive (start, end) spans from the match starts, the last span running
to the end of the text. -/
def spanPairs : List ℕ → ℕ → List (ℕ × ℕ)
  | [], _ => []
  | [s], len => [(s, len)]
  | s :: s2 :: rest, len => (s, s2) :: spanPairs (s2 :: rest) len

/-- `_split_items`: stripped spans between item-boundary matches; empty when no
marker is found. -/
def _split_items (text : String) : List String :=
  let cs := text.data
  let starts := findItemStartsAux (cs.length + 1) 0 true cs
  (spanPairs starts cs.length).map
    (fun se => (⟨pyStrip ((cs.drop se.1).take (se.2 - se.1))⟩ : String))

/-- `parse_prescription_items`: each segment with a non-empty line is parsed by
the single-item parser and its medicine overridden by the cleaned first line,
with the falsy-default chain `medicine or parsed["medicine"] or "Unknown"`. -/
def parse_prescription_items (text : String) : Option (List ParseResult) :=
  (_split_items text).foldlM (fun acc seg =>
    let lines := ((pySplitLines seg.data).map pyStrip).filter (fun l => l ≠ [])
    match lines with
    | [] => some acc
    | medLine :: _ =>
      (parse_prescription_text seg).bind (fun parsed =>
        some (acc ++ [{ parsed with
          medicine := pyOrString (some (⟨_clean_medicine_name medLine⟩ : String))
            (pyOrString (some parsed.medicine) "Unknown") }]))) []

/-! ## `schedule_creator.py`: constants and utilities -/

/-- 08:00 in minutes after midnight. -/
def DEFAULT_MORNING : ℕ := 8 * 60

/-- 13:00 in minutes after midnight. -/
def DEFAULT_AFTERNOON : ℕ := 13 * 60

/-- 18:00 in minutes after midnight. -/
def DEFAULT_EVENING : ℕ := 18 * 60

/-- 21:00 in minutes after midnight. -/
def DEFAULT_NIGHT : ℕ := 21 * 60

/-- 12:00, the value of `TIME_TOKEN_MAP["noon"]`. -/
def NOON_TIME : ℕ := 12 * 60

/-- `TIME_TOKEN_MAP` in its insertion (iteration) order. -/
def TIME_TOKEN_MAP : List (List Char × ℕ) :=
  [("morning".data, DEFAULT_MORNING), ("afternoon".data, DEFAULT_AFTERNOON),
   ("evening".data, DEFAULT_EVENING), ("night".data, DEFAULT_NIGHT),
   ("noon".data, NOON_TIME)]

/-- State machine for `re.sub(r"\s+", " ", ...)`: every maximal whitespace run
becomes a single space. -/
def collapsePlusAux : Bool → List Char → List Char
  | _, [] => []
  | inRun, c :: rest =>
    if isSpaceChar c then
      if inRun then collapsePlusAux true rest
      else ' ' :: collapsePlusAux true rest
    else c :: collapsePlusAux false rest

/-- `normalize_text`: strip, lowercase, collapse whitespace runs. -/
def normalize_text (s : List Char) : List Char :=
  collapsePlusAux false ((pyStrip s).map Char.toLower)

/-- `parse_numeric_pattern`: `re.match(r"^([0-9])\-([0-9])\-([0-9])$", strip(p))`,
digits returned as numbers. -/
def parse_numeric_pattern (pattern : List Char) : Option (List ℕ) :=
  match pyStrip pattern with
  | [d1, h1, d2, h2, d3] =>
    if d1.isDigit && (h1 == '-') && d2.isDigit && (h2 == '-') && d3.isDigit
    then some [digitVal d1, digitVal d2, digitVal d3]
    else none
  | _ => none

/-- `map_counts_to_times`: nonzero counts select morning, afternoon, night (in
that order), with the source's redundant membership check kept. -/
def map_counts_to_times (counts : List ℕ) : List ℕ :=
  (counts.zip [DEFAULT_MORNING, DEFAULT_AFTERNOON, DEFAULT_NIGHT]).foldl
    (fun slots p => if p.1 ≠ 0 ∧ p.2 ∉ slots then slots ++ [p.2] else slots)
    []

/-- Guard of the once/daily branch, with Python's `or`/`and` precedence:
`"once" in s or "once a day" in s or ("daily" in s and "twice" not in s)`. -/
def onceGuard (s : List Char) : Bool :=
  containsSub "once".data s || containsSub "once a day".data s ||
    (containsSub "daily".data s && !containsSub "twice".data s)

/-- Guard of the twice branch. -/
def twiceGuard (s : List Char) : Bool :=
  containsSub "twice".data s || containsSub "two times".data s ||
    containsSub "2 times".data s

/-- Guard of the three-times branch. -/
def thriceGuard (s : List Char) : Bool :=
  containsSub "three".data s || containsSub "thrice".data s ||
    containsSub "3 times".data s

/-- One attempt of `every\s+(\d+)\s*hours?` at the current position (the text
is already lowercase here). -/
def everyAt (cs : List Char) : Option ℕ :=
  if listStarts "every".data cs then
    let r1 := cs.drop 5
    let sp := r1.takeWhile isSpaceChar
    let r2 := r1.dropWhile isSpaceChar
    let ds := r2.takeWhile Char.isDigit
    if sp ≠ [] ∧ ds ≠ [] then
      if listStarts "hour".data ((r2.dropWhile Char.isDigit).dropWhile isSpaceChar)
      then some (natOfDigits ds)
      else none
    else none
  else none

/-- `re.search(r"every\s+(\d+)\s*hours?", s)`: leftmost match's number. -/
def everySearch : List Char → Option ℕ
  | [] => none
  | c :: rest =>
    match everyAt (c :: rest) with
    | some n => some n
    | none => everySearch rest

/-- The every-N-hours loop: `24 // max(1, hours)` times starting at 08:00,
wrapping within the day as `datetime.time` does. -/
def everyHoursTimes (hours : ℕ) : List ℕ :=
  (List.range (24 / max 1 hours)).map
    (fun k => (DEFAULT_MORNING + k * hours * 60) % 1440)

/-- `estimate_times_from_text`: frequency phrases, then the every-N-hours
pattern, then the first `TIME_TOKEN_MAP` token (in insertion order) contained
in the text.  The source's `tslot not in []` test is always true and is
omitted. -/
def estimate_times_from_text (instr : List Char) : List ℕ :=
  let s := normalize_text instr
  if onceGuard s then [DEFAULT_MORNING]
  else if twiceGuard s then [DEFAULT_MORNING, DEFAULT_NIGHT]
  else if thriceGuard s then [DEFAULT_MORNING, DEFAULT_AFTERNOON, DEFAULT_NIGHT]
  else
    match everySearch s with
    | some h => everyHoursTimes h
    | none =>
      match TIME_TOKEN_MAP.findSome?
        (fun p => if containsSub p.1 s then some p.2 else none) with
      | some t => [t]
      | none => []

/-! ## `schedule_creator.py`: public API -/

/-- `map_dose_pattern_to_times`: numeric pattern, then phrases on the primary
text, then phrases on a truthy fallback, then the default morning+night pair. -/
def map_dose_pattern_to_times (dose_pattern : String) (fallback_instr : Option String) :
    List ℕ :=
  if dose_pattern.data = [] then []
  else
    let s := normalize_text dose_pattern.data
    let t1 := match parse_numeric_pattern s with
              | some counts => map_counts_to_times counts
              | none => []
    if t1 ≠ [] then t1
    else
      let t2 := estimate_times_from_text s
      if t2 ≠ [] then t2
      else
        let t3 := match fallback_instr with
                  | some f => if f.data = [] then [] else estimate_times_from_text f.data
                  | none => []
        if t3 ≠ [] then t3 else [DEFAULT_MORNING, DEFAULT_NIGHT]

/-- The `MedicineSchedule` dataclass.  `duration_days` is a natural number:
Python's `range` iterates an `int` duration exactly `max 0 d` times, and every
constructor in the source supplies a positive value. -/
structure MedicineSchedule where
  medicine : String
  dose_pattern : String
  duration_days : ℕ
  start_date : ℤ
  times : List ℕ
  notes : Option String
deriving DecidableEq

/-- `generate_schedule_entries_for_medicine`.  The extra `today` argument makes
the impure `date.today()` default explicit. -/
def generate_schedule_entries_for_medicine (med_name dose_pattern : String)
    (duration_days : Option ℤ) (start_date : Option ℤ)
    (fallback_instr notes : Option String) (today : ℤ) : MedicineSchedule :=
  let sd := start_date.getD today
  let d : ℕ := match duration_days with
               | none => 5
               | some d => if d ≤ 0 then 5 else d.toNat
  let times := map_dose_pattern_to_times dose_pattern fallback_instr
  let times := if times = [] then [DEFAULT_MORNING, DEFAULT_NIGHT] else times
  { medicine := med_name, dose_pattern := dose_pattern, duration_days := d,
    start_date := sd, times := times, notes := notes }

/-- One expanded reminder: `(datetime, medicine, note)`, the datetime as a
(date, minutes) pair. -/
abbrev ScheduleEntry := (ℤ × ℕ) × String × String

/-- `expand_schedule_to_datetime_entries`: for each day offset, one entry per
time, the note being `schedule.notes or schedule.dose_pattern`.  This is the
value of the source loop when every computed date is representable; the
bounded-date refinement `expand_checked` below accounts for Python's date
range. -/
def expand_schedule_to_datetime_entries (s : MedicineSchedule) : List ScheduleEntry :=
  (List.range s.duration_days).flatMap (fun off =>
    s.times.map (fun t =>
      ((s.start_date + (off : ℤ), t), s.medicine, pyOrString s.notes s.dose_pattern)))

/-- Ordinal of `datetime.date.min` (0001-01-01). -/
def DATE_MIN_ORDINAL : ℤ := 1

/-- Ordinal of `datetime.date.max` (9999-12-31). -/
def DATE_MAX_ORDINAL : ℤ := 3652059

/-- The expansion loop with Python's bounded dates: at each day offset the
source computes `schedule.start_date + timedelta(days=day_offset)`, which
raises `OverflowError` — modelled as `none` — as soon as the result leaves
`date.min .. date.max`; otherwise the day's entries are appended exactly as in
`expand_schedule_to_datetime_entries`. -/
def expand_checked (s : MedicineSchedule) : Option (List ScheduleEntry) :=
  (List.range s.duration_days).foldlM (fun (acc : List ScheduleEntry) (off : ℕ) =>
    if DATE_MIN_ORDINAL ≤ s.start_date + (off : ℤ) ∧
       s.start_date + (off : ℤ) ≤ DATE_MAX_ORDINAL
    then some (acc ++ s.times.map (fun t =>
      ((s.start_date + (off : ℤ), t), s.medicine, pyOrString s.notes s.dose_pattern)))
    else none) []

/-! ## Statement-side vocabulary

Definitions below follow the wording of the specification's testable
properties, to be compared with the functions embedded from the source. -/

/-- The character of one binary dose digit. -/
def boolDigit (b : Bool) : Char := if b then '1' else '0'

/-- The dose-pattern string `a-b-c` with digits restricted to {0,1}. -/
def patStrB (a b c : Bool) : String :=
  ⟨[boolDigit a, '-', boolDigit b, '-', boolDigit c]⟩

/-- Number of `1` digits in the pattern `a-b-c`. -/
def onesCount (a b c : Bool) : ℕ := (cond a 1 0) + (cond b 1 0) + (cond c 1 0)

/-- Canonical slot names selected by the set digits, in morning/noon/night
order (spec wording). -/
def slotNamesOf (a b c : Bool) : List String :=
  (if a then ["morning"] else []) ++ (if b then ["noon"] else []) ++
    (if c then ["night"] else [])

/-- Canonical clock times selected by the set digits, in slot order (spec
wording). -/
def slotTimesOf (a b c : Bool) : List ℕ :=
  (if a then [DEFAULT_MORNING] else []) ++ (if b then [DEFAULT_AFTERNOON] else []) ++
    (if c then [DEFAULT_NIGHT] else [])

/-- The dose-pattern string `a-b-c` with arbitrary decimal digits. -/
def patStr10 (a b c : ℕ) : String :=
  ⟨[Nat.digitChar a, '-', Nat.digitChar b, '-', Nat.digitChar c]⟩

/-- Clock times selected by nonzero digits (the resolver's policy, claim C10). -/
def nonzeroTimes (a b c : ℕ) : List ℕ :=
  (if a ≠ 0 then [DEFAULT_MORNING] else []) ++ (if b ≠ 0 then [DEFAULT_AFTERNOON] else []) ++
    (if c ≠ 0 then [DEFAULT_NIGHT] else [])

/-- Slot names selected by digits equal to one (the parser's policy, claim
C10). -/
def oneSlots (a b c : ℕ) : List String :=
  (if a = 1 then ["morning"] else []) ++ (if b = 1 then ["noon"] else []) ++
    (if c = 1 then ["night"] else [])

/-! ## Claim C1: binary dose patterns -/

/-- C1 (counterexample): the claim asserts that `map_dose_pattern_to_times`
yields a times set of size 0 for "0-0-0"; the source instead falls through to
the default morning+night pair, of size 2. -/
theorem claim1_counterexample :
    map_dose_pattern_to_times "0-0-0" none = [DEFAULT_MORNING, DEFAULT_NIGHT]
    ∧ (map_dose_pattern_to_times "0-0-0" none).length ≠ 0 := by decide

/-- C1 (amended): for every dose pattern `a-b-c` with digits in {0,1}, the
digit-position inference of `parse_prescription_text` yields the canonical
slots of the set digits (so its size equals the count of 1 digits, including
size 0 for "0-0-0"), and `map_dose_pattern_to_times` (with no fallback text)
yields the corresponding clock times in canonical order when at least one
digit is 1, but the default pair [08:00, 21:00] for "0-0-0". -/
theorem claim1_amended (a b c : Bool) :
    inferTimesFromDose (patStrB a b c) = some (slotNamesOf a b c)
    ∧ (slotNamesOf a b c).length = onesCount a b c
    ∧ (slotTimesOf a b c).length = onesCount a b c
    ∧ ((a = true ∨ b = true ∨ c = true) →
        map_dose_pattern_to_times (patStrB a b c) none = slotTimesOf a b c)
    ∧ (a = false → b = false → c = false →
        map_dose_pattern_to_times (patStrB a b c) none =
          [DEFAULT_MORNING, DEFAULT_NIGHT]) := by
  cases a <;> cases b <;> cases c <;> decide

/-- C1 (witness): the amended statement instantiated at the pattern "1-0-1". -/
theorem claim1_witness :
    inferTimesFromDose (patStrB true false true) = some ["morning", "night"]
    ∧ map_dose_pattern_to_times (patStrB true false true) none =
        [DEFAULT_MORNING, DEFAULT_NIGHT] := by
  have h := claim1_amended true false true
  exact ⟨h.1.trans (by decide), (h.2.2.2.1 (Or.inl rfl)).trans (by decide)⟩

/-! ## Whitespace-only inputs -/

/-- Enumeration of the whitespace characters. -/
theorem space_char_cases (c : Char) (h : isSpaceChar c = true) :
    c = ' ' ∨ c = '\t' ∨ c = '\n' ∨ c = '\r' ∨ c = '\x0b' ∨ c = '\x0c' := by
  have h2 := h
  simp [isSpaceChar] at h2
  tauto

/-- A whitespace character is not a decimal digit. -/
theorem space_not_digit {c : Char} (h : isSpaceChar c = true) : c.isDigit = false := by
  rcases space_char_cases c h with rfl | rfl | rfl | rfl | rfl | rfl <;> decide

/-- The dose matcher fails at a whitespace character. -/
theorem space_doseMatchAt {c : Char} (h : isSpaceChar c = true) (b : Bool)
    (rest : List Char) : doseMatchAt b (c :: rest) = none := by
  rcases space_char_cases c h with rfl | rfl | rfl | rfl | rfl | rfl <;>
    rcases rest with _ | ⟨c1, _ | ⟨c2, _ | ⟨c3, _ | ⟨c4, rest5⟩⟩⟩⟩ <;> rfl

/-- The duration matcher fails at a whitespace character. -/
theorem space_durationMatchAt {c : Char} (h : isSpaceChar c = true) (b : Bool)
    (rest : List Char) : durationMatchAt b (c :: rest) = none := by
  rcases space_char_cases c h with rfl | rfl | rfl | rfl | rfl | rfl <;> rfl

/-- The time-keyword matcher fails at a whitespace character. -/
theorem space_timeMatchAt {c : Char} (h : isSpaceChar c = true) (b : Bool)
    (rest : List Char) : timeMatchAt b (c :: rest) = none := by
  rcases space_char_cases c h with rfl | rfl | rfl | rfl | rfl | rfl <;> cases b <;> rfl

/-- `DOSE_RE` finds nothing in whitespace-only text. -/
theorem doseSearch_all_space (cs : List Char) (h : ∀ c ∈ cs, isSpaceChar c = true)
    (b : Bool) : doseSearch b cs = none := by
  induction cs generalizing b with
  | nil => rfl
  | cons c rest ih =>
    simp only [doseSearch, space_doseMatchAt (h c (by simp)) b rest]
    exact ih (fun x hx => h x (by simp [hx])) _

/-- `DURATION_RE` finds nothing in whitespace-only text. -/
theorem durationSearch_all_space (cs : List Char) (h : ∀ c ∈ cs, isSpaceChar c = true)
    (b : Bool) : durationSearch b cs = none := by
  induction cs generalizing b with
  | nil => rfl
  | cons c rest ih =>
    simp only [durationSearch, space_durationMatchAt (h c (by simp)) b rest]
    exact ih (fun x hx => h x (by simp [hx])) _

/-- `TIME_RE` finds nothing in whitespace-only text. -/
theorem timeFindAll_all_space (cs : List Char) (h : ∀ c ∈ cs, isSpaceChar c = true)
    (b : Bool) : timeFindAll b cs = [] := by
  induction cs generalizing b with
  | nil => rfl
  | cons c rest ih =>
    simp only [timeFindAll, space_timeMatchAt (h c (by simp)) b rest]
    exact ih (fun x hx => h x (by simp [hx])) _

/-- Every line split from whitespace-only text is whitespace-only. -/
theorem splitLinesAux_space (cs : List Char) : ∀ (b : Bool) (acc : List Char),
    (∀ c ∈ cs, isSpaceChar c = true) → (∀ c ∈ acc, isSpaceChar c = true) →
    ∀ l ∈ splitLinesAux b acc cs, ∀ c ∈ l, isSpaceChar c = true := by
  induction cs with
  | nil =>
    intro b acc _ hacc l hl c hc
    simp only [splitLinesAux] at hl
    split at hl
    · simp at hl
    · simp at hl
      subst hl
      exact hacc c (by simpa using hc)
  | cons d rest ih =>
    intro b acc h hacc l hl c hc
    have hd : isSpaceChar d = true := h d (by simp)
    have hrest : ∀ x ∈ rest, isSpaceChar x = true := fun x hx => h x (by simp [hx])
    simp only [splitLinesAux] at hl
    split at hl
    · split at hl
      · exact ih false acc hrest hacc l hl c hc
      · rcases List.mem_cons.mp hl with rfl | hl'
        · exact hacc c (by simpa using hc)
        · exact ih false [] hrest (by simp) l hl' c hc
    · split at hl
      · rcases List.mem_cons.mp hl with rfl | hl'
        · exact hacc c (by simpa using hc)
        · exact ih true [] hrest (by simp) l hl' c hc
      · split at hl
        · rcases List.mem_cons.mp hl with rfl | hl'
          · exact hacc c (by simpa using hc)
          · exact ih false [] hrest (by simp) l hl' c hc
        · exact ih false (d :: acc) hrest
            (fun x hx => by rcases List.mem_cons.mp hx with rfl | hx'
                            exacts [hd, hacc x hx']) l hl c hc

/-- Stripping whitespace-only text leaves nothing. -/
theorem pyStrip_all_space {l : List Char} (h : ∀ c ∈ l, isSpaceChar c = true) :
    pyStrip l = [] := by
  unfold pyStrip
  rw [List.dropWhile_eq_nil_iff.mpr h]
  rfl

/-- The medicine-name heuristic yields no candidate on whitespace-only text. -/
theorem guess_all_space (text : String) (h : ∀ c ∈ text.data, isSpaceChar c = true) :
    _guess_medicine_names text = [] := by
  unfold _guess_medicine_names
  have hnil : (pySplitLines text.data).filterMap (fun line =>
      let l := pyStrip line
      if l = [] then none
      else
        let tokens := findTokensAux none l
        let cand := tokens.filter (fun t => !(blacklist.contains (t.map Char.toLower)))
        cand.head?) = [] := by
    rw [List.filterMap_eq_nil_iff]
    intro line hline
    have hsp : ∀ c ∈ line, isSpaceChar c = true :=
      splitLinesAux_space text.data false [] h (by simp) line hline
    simp [pyStrip_all_space hsp]
  rw [hnil]
  rfl

/-! ## Claim C2: empty or whitespace-only input -/

/-- C2 (counterexample): on the empty input the parser returns duration 1 (the
parse-level falsy default), not the 5 the claim asserts. -/
theorem claim2_counterexample :
    parse_prescription_text "" = some ⟨"Unknown", "0-0-0", [], 1⟩
    ∧ parse_prescription_text "" ≠ some ⟨"Unknown", "0-0-0", [], 5⟩ := by decide

/-- C2 (amended): for every empty or whitespace-only input,
`parse_prescription_text` returns medicine "Unknown", dose "0-0-0", empty
times, and duration 1 — the 5-day default belongs to
`generate_schedule_entries_for_medicine`, not to the parser. -/
theorem claim2_amended (text : String) (h : text.data.all isSpaceChar = true) :
    parse_prescription_text text = some ⟨"Unknown", "0-0-0", [], 1⟩ := by
  have h' : ∀ c ∈ text.data, isSpaceChar c = true := List.all_eq_true.mp h
  have hd : doseSearchStr text = none := by
    unfold doseSearchStr
    rw [doseSearch_all_space text.data h' false]
    rfl
  have ht : _parse_times text = [] := by
    unfold _parse_times
    rw [timeFindAll_all_space text.data h' false]
    rfl
  have hu : _parse_duration_days text = none := by
    unfold _parse_duration_days
    rw [durationSearch_all_space text.data h' false]
  unfold parse_prescription_text
  rw [hd, ht, hu, guess_all_space text h']
  rfl

/-- C2 (witness): the amended statement instantiated at a whitespace-only
input. -/
theorem claim2_witness :
    parse_prescription_text " \n\t" = some ⟨"Unknown", "0-0-0", [], 1⟩ :=
  claim2_amended " \n\t" (by decide)

/-! ## Claim C3: the Paracetamol scenario -/

/-- C3 (counterexample): on the scenario input the parser does not return the
whole first line "Paracetamol 500mg" as the medicine. -/
theorem claim3_counterexample :
    parse_prescription_text "Paracetamol 500mg\n1-0-1\n5 days" ≠
      some { medicine := "Paracetamol 500mg", dose := "1-0-1",
             time := ["morning", "night"], duration_days := 5 } := by decide

/-- C3 (amended): on the scenario input the parser returns the first surviving
token "Paracetamol" as the medicine, with dose "1-0-1", times
[morning, night] and duration 5. -/
theorem claim3_amended :
    parse_prescription_text "Paracetamol 500mg\n1-0-1\n5 days" =
      some { medicine := "Paracetamol", dose := "1-0-1",
             time := ["morning", "night"], duration_days := 5 } := by decide

/-! ## Claim C4: frequency phrases versus time keywords in the parser -/

/-- A synthesized dose string is never empty: each slot contributes a digit. -/
theorem synthDose_ne_empty (ts : List String) : synthDoseFromTimes ts ≠ "" := by
  unfold synthDoseFromTimes
  by_cases h1 : ts.contains "morning" <;> by_cases h2 : ts.contains "noon" <;>
    by_cases h3 : ts.contains "night" <;>
      simp [slot_names, joinHyphen, h1, h2, h3, String.ext_iff]

/-- C4 (counterexample): `parse_prescription_text` does not recognise the
frequency phrase "twice a day": it returns dose "0-0-0" and no times (and even
takes "twice" as the medicine guess), not dose "1-0-1" with morning and
night. -/
theorem claim4_counterexample :
    parse_prescription_text "twice a day" =
      some { medicine := "twice", dose := "0-0-0", time := [], duration_days := 1 }
    ∧ (parse_prescription_text "twice a day").map ParseResult.dose ≠ some "1-0-1" := by
  decide

/-- C4 (amended): dose synthesis in the parser is driven by canonical time
keywords, not frequency phrases: whenever no dose pattern matches and the
keyword scan is non-empty, the parser returns the dose string with digit 1 for
each canonical slot present, together with those times; the phrase
"twice a day" is instead handled by `map_dose_pattern_to_times`, which maps it
to [08:00, 21:00]. -/
theorem claim4_amended (text : String) (h1 : doseSearchStr text = none)
    (h2 : _parse_times text ≠ []) :
    (parse_prescription_text text).map (fun r => (r.dose, r.time)) =
      some (synthDoseFromTimes (_parse_times text), _parse_times text)
    ∧ map_dose_pattern_to_times "twice a day" none =
        [DEFAULT_MORNING, DEFAULT_NIGHT] := by
  refine ⟨?_, by decide⟩
  unfold parse_prescription_text
  rw [h1]
  have hres : resolveTimes none (_parse_times text) = some (_parse_times text) := rfl
  rw [hres]
  simp only [Option.map_some', Option.map_map, Function.comp]
  unfold finishParse
  rw [if_pos ⟨rfl, h2⟩]
  simp [pyOrString, synthDose_ne_empty (_parse_times text)]

/-- C4 (witness): the amended statement instantiated at a keyword input. -/
theorem claim4_witness :
    (parse_prescription_text "morning and night").map (fun r => (r.dose, r.time)) =
      some ("1-0-1", ["morning", "night"]) := by
  have h := claim4_amended "morning and night" (by decide) (by decide)
  exact h.1.trans (by decide)

/-! ## Claim C5: medicine-name fallback -/

/-- C5 (counterexample): on the non-empty input "mg" no line yields a
surviving token, and the parser returns the "Unknown" sentinel, not the first
non-empty line "mg" verbatim. -/
theorem claim5_counterexample :
    parse_prescription_text "mg" = some ⟨"Unknown", "0-0-0", [], 1⟩
    ∧ ("Unknown" : String) ≠ "mg" := by decide

/-- C5 (amended): the resolved medicine name is always a non-empty string, but
the fallback when no line yields a surviving token is the "Unknown" sentinel —
there is no verbatim-first-line fallback, and "Unknown" also occurs for
non-empty inputs. -/
theorem claim5_amended (text : String) (r : ParseResult)
    (h : parse_prescription_text text = some r) :
    r.medicine ≠ "" ∧ (_guess_medicine_names text = [] → r.medicine = "Unknown") := by
  unfold parse_prescription_text at h
  obtain ⟨ts, hts, hr⟩ := Option.map_eq_some'.mp h
  have hmed : r.medicine = pyOrString (_guess_medicine_names text).head? "Unknown" := by
    rw [← hr]
    simp [finishParse]
  constructor
  · rw [hmed]
    unfold pyOrString
    split
    · split
      · simp
      · assumption
    · simp
  · intro hg
    rw [hmed, hg]
    rfl

/-- C5 (witness): the amended statement instantiated at the tokenless input
"mg". -/
theorem claim5_witness :
    ∃ r, parse_prescription_text "mg" = some r ∧ r.medicine ≠ ""
      ∧ (_guess_medicine_names "mg" = [] → r.medicine = "Unknown") := by
  have h := claim5_amended "mg" ⟨"Unknown", "0-0-0", [], 1⟩ (by decide)
  exact ⟨_, by decide, h⟩

/-! ## Claim C6: keyword strategy of the resolver -/

/-- C6 (counterexample): in "night and morning" the keyword occurring first in
the text is "night" (21:00), yet the resolver returns morning (08:00), because
its loop follows the token-map iteration order. -/
theorem claim6_counterexample :
    map_dose_pattern_to_times "night and morning" none = [DEFAULT_MORNING]
    ∧ [DEFAULT_MORNING] ≠ [DEFAULT_NIGHT] := by decide

/-- C6 (amended): when the frequency-phrase guards and the every-N-hours
pattern all fail, the resolver's keyword strategy returns exactly the single
clock time of the first token of `TIME_TOKEN_MAP` — in its iteration order
morning, afternoon, evening, night, noon — contained anywhere in the text, not
the keyword occurring first in document order. -/
theorem claim6_amended (instr : String) (t : ℕ)
    (h1 : onceGuard (normalize_text instr.data) = false)
    (h2 : twiceGuard (normalize_text instr.data) = false)
    (h3 : thriceGuard (normalize_text instr.data) = false)
    (h4 : everySearch (normalize_text instr.data) = none)
    (h5 : TIME_TOKEN_MAP.findSome?
        (fun p => if containsSub p.1 (normalize_text instr.data) then some p.2
                  else none) = some t) :
    estimate_times_from_text instr.data = [t] := by
  simp [estimate_times_from_text, h1, h2, h3, h4, h5]

/-- C6 (witness): the amended statement instantiated at "night and morning". -/
theorem claim6_witness :
    estimate_times_from_text "night and morning".data = [DEFAULT_MORNING] :=
  claim6_amended "night and morning" DEFAULT_MORNING (by decide) (by decide)
    (by decide) (by decide) (by decide)

/-! ## Claim C7: shape and order of the expansion -/

/-- Length of a day-indexed expansion when every day contributes `n` entries. -/
theorem flatMap_range_length {α : Type} (f : ℕ → List α) (d n : ℕ)
    (hf : ∀ k, (f k).length = n) : ((List.range d).flatMap f).length = d * n := by
  induction d with
  | zero => simp
  | succ d ih =>
    rw [List.range_succ, List.flatMap_append]
    simp [ih, hf, Nat.succ_mul]

/-- Entry `i * n + j` of a day-indexed expansion is entry `j` of day `i`. -/
theorem flatMap_range_getElem {α : Type} (f : ℕ → List α) (d n i j : ℕ)
    (hf : ∀ k, (f k).length = n) (hi : i < d) (hj : j < n) :
    ((List.range d).flatMap f)[i * n + j]? = (f i)[j]? := by
  induction d with
  | zero => omega
  | succ d ih =>
    rw [List.range_succ, List.flatMap_append]
    rcases Nat.lt_or_ge i d with h | h
    · rw [List.getElem?_append_left, ih h]
      rw [flatMap_range_length f d n hf]
      calc i * n + j < i * n + n := by omega
        _ = (i + 1) * n := by ring
        _ ≤ d * n := Nat.mul_le_mul_right n h
    · have hieq : i = d := by omega
      subst hieq
      rw [List.getElem?_append_right (by rw [flatMap_range_length f i n hf]; omega)]
      rw [flatMap_range_length f i n hf]
      simp

/-- C7 (confirmed): the expansion of a `MedicineSchedule` has exactly
`duration_days * |times|` entries, grouped by day in ascending date order and,
within each day, in the order of the record's times list: the entry at index
`i * |times| + j` is day `start_date + i` at the `j`-th time. -/
theorem claim7_expand_shape (s : MedicineSchedule) :
    (expand_schedule_to_datetime_entries s).length = s.duration_days * s.times.length
    ∧ ∀ i j t, i < s.duration_days → s.times[j]? = some t →
        (expand_schedule_to_datetime_entries s)[i * s.times.length + j]? =
          some ((s.start_date + (i : ℤ), t), s.medicine,
                pyOrString s.notes s.dose_pattern) := by
  constructor
  · exact flatMap_range_length _ _ _ (fun k => by simp)
  · intro i j t hi hj
    have hjlen : j < s.times.length := (List.getElem?_eq_some_iff.mp hj).1
    unfold expand_schedule_to_datetime_entries
    rw [flatMap_range_getElem _ _ _ i j (fun k => by simp) hi hjlen]
    rw [List.getElem?_map, hj]
    rfl

/-- C7 (witness): the shape statement instantiated at a concrete two-day,
two-time schedule. -/
theorem claim7_witness :
    (expand_schedule_to_datetime_entries ⟨"Med", "1-0-1", 2, 0, [480, 1260], none⟩).length = 4
    ∧ (expand_schedule_to_datetime_entries ⟨"Med", "1-0-1", 2, 0, [480, 1260], none⟩)[3]? =
        some ((1, 1260), "Med", "1-0-1") := by
  have h := claim7_expand_shape ⟨"Med", "1-0-1", 2, 0, [480, 1260], none⟩
  refine ⟨h.1.trans (by decide), ?_⟩
  have h2 := h.2 1 1 1260 (by decide) (by decide)
  simpa using h2

/-! ## Claim C8: schedule invariants -/

/-- C8 (confirmed): every schedule built by
`generate_schedule_entries_for_medicine` has `duration_days ≥ 1` (with 5
substituted when the supplied duration is absent or non-positive) and a
non-empty times list, the substituted default being exactly the morning+night
pair when every resolution strategy yields nothing. -/
theorem claim8_schedule_invariants (med dp : String) (dur : Option ℤ)
    (sd : Option ℤ) (fb notes : Option String) (today : ℤ) :
    1 ≤ (generate_schedule_entries_for_medicine med dp dur sd fb notes today).duration_days
    ∧ (generate_schedule_entries_for_medicine med dp dur sd fb notes today).times ≠ []
    ∧ ((dur = none ∨ ∃ d, dur = some d ∧ d ≤ 0) →
        (generate_schedule_entries_for_medicine med dp dur sd fb notes today).duration_days = 5)
    ∧ (map_dose_pattern_to_times dp fb = [] →
        (generate_schedule_entries_for_medicine med dp dur sd fb notes today).times =
          [DEFAULT_MORNING, DEFAULT_NIGHT]) := by
  refine ⟨?_, ?_, ?_, ?_⟩
  · rcases dur with _ | d
    · simp [generate_schedule_entries_for_medicine]
    · simp only [generate_schedule_entries_for_medicine]
      split
      · omega
      · omega
  · simp only [generate_schedule_entries_for_medicine]
    split
    · simp
    · assumption
  · rintro (rfl | ⟨d, rfl, hd⟩)
    · rfl
    · simp [generate_schedule_entries_for_medicine, hd]
  · intro hmap
    simp [generate_schedule_entries_for_medicine, hmap]

/-- C8 (witness): the invariants instantiated with an empty dose pattern and
an absent duration. -/
theorem claim8_witness :
    (generate_schedule_entries_for_medicine "A" "" none none none none 0).duration_days = 5
    ∧ (generate_schedule_entries_for_medicine "A" "" none none none none 0).times =
        [DEFAULT_MORNING, DEFAULT_NIGHT] := by
  have h := claim8_schedule_invariants "A" "" none none none none 0
  exact ⟨h.2.2.1 (Or.inl rfl), h.2.2.2 (by decide)⟩

/-! ## Claim C9: totality of the pipeline -/

/-- The inference loop succeeds whenever it starts within the three slot
names — the indexing can never leave `slot_names`. -/
theorem inferLoop_isSome (parts : List (List Char)) : ∀ (idx : ℕ) (acc : List String),
    idx + parts.length ≤ 3 → (inferLoop idx parts acc).isSome = true := by
  induction parts with
  | nil => intro idx acc _; rfl
  | cons p rest ih =>
    intro idx acc h
    have hlen : idx + rest.length + 1 ≤ 3 := by simp at h; omega
    simp only [inferLoop]
    split
    · have hidx : idx < slot_names.length := by simp [slot_names]; omega
      obtain ⟨s, hs⟩ : ∃ s, slot_names.get? idx = some s := ⟨_, List.get?_eq_get hidx⟩
      rw [hs]
      exact ih (idx + 1) (acc ++ [s]) (by omega)
    · exact ih (idx + 1) acc (by omega)

/-- The digit-position inference is total: the slots list is never indexed out
of range. -/
theorem inferTimes_isSome (d : String) : (inferTimesFromDose d).isSome = true := by
  unfold inferTimesFromDose
  apply inferLoop_isSome
  simp [List.length_take]

/-- Time resolution inside the parser always yields a list. -/
theorem resolveTimes_isSome (dose : Option String) (times0 : List String) :
    (resolveTimes dose times0).isSome = true := by
  cases dose with
  | none => rfl
  | some d =>
    cases times0 with
    | nil => exact inferTimes_isSome d
    | cons t ts => rfl

/-- `parse_prescription_text` is total: it returns a record for every input. -/
theorem parse_text_isSome (text : String) :
    (parse_prescription_text text).isSome = true := by
  unfold parse_prescription_text
  obtain ⟨ts, hts⟩ := Option.isSome_iff_exists.mp
    (resolveTimes_isSome (doseSearchStr text) (_parse_times text))
  rw [hts]
  rfl

/-- An option-valued fold succeeds when every step succeeds. -/
theorem foldlM_option_isSome {α β : Type} (f : β → α → Option β) (l : List α)
    (hf : ∀ b a, a ∈ l → (f b a).isSome = true) :
    ∀ b, (l.foldlM f b).isSome = true := by
  induction l with
  | nil => intro b; rfl
  | cons a rest ih =>
    intro b
    rw [List.foldlM_cons]
    obtain ⟨b1, hb1⟩ := Option.isSome_iff_exists.mp (hf b a (by simp))
    rw [hb1]
    exact ih (fun b' a' ha' => hf b' a' (by simp [ha'])) b1

/-- `parse_prescription_items` is total: it returns a list of records for
every input. -/
theorem parse_items_isSome (text : String) :
    (parse_prescription_items text).isSome = true := by
  unfold parse_prescription_items
  apply foldlM_option_isSome
  intro acc seg _
  cases hl : ((pySplitLines seg.data).map pyStrip).filter (fun l => l ≠ []) with
  | nil => simp [hl]
  | cons medLine rest =>
    simp only [hl]
    obtain ⟨r, hr⟩ := Option.isSome_iff_exists.mp (parse_text_isSome seg)
    rw [hr]
    rfl

/-- The resolver returns the empty list only for an empty dose pattern: every
other input reaches a non-empty strategy result or the final default pair. -/
theorem map_dose_ne_nil (dp : String) (fb : Option String) (h : dp.data ≠ []) :
    map_dose_pattern_to_times dp fb ≠ [] := by
  unfold map_dose_pattern_to_times
  rw [if_neg h]
  dsimp only
  split_ifs with h1 h2 h3
  · exact h1
  · exact h2
  · exact h3
  · decide

/-- An option-valued fold fails when some list element fails for every
accumulator. -/
theorem foldlM_option_none {α β : Type} (f : β → α → Option β) (l : List α)
    (a : α) (ha : a ∈ l) (hfa : ∀ b, f b a = none) :
    ∀ b, l.foldlM f b = none := by
  induction l with
  | nil => simp at ha
  | cons x rest ih =>
    intro b
    rw [List.foldlM_cons]
    cases hx : f b x with
    | none => rfl
    | some b1 =>
      rcases List.mem_cons.mp ha with rfl | hrest
      · rw [hfa b] at hx
        cases hx
      · exact ih hrest b1

/-- The checked expansion loop over in-range days: it never fails and appends
exactly the unbounded expansion of those days. -/
theorem expandChecked_aux (sd : ℤ) (times : List ℕ) (med note : String) (d : ℕ)
    (h : ∀ off : ℕ, off < d →
      DATE_MIN_ORDINAL ≤ sd + (off : ℤ) ∧ sd + (off : ℤ) ≤ DATE_MAX_ORDINAL) :
    ∀ acc : List ScheduleEntry,
      (List.range d).foldlM (fun (acc : List ScheduleEntry) (off : ℕ) =>
        if DATE_MIN_ORDINAL ≤ sd + (off : ℤ) ∧ sd + (off : ℤ) ≤ DATE_MAX_ORDINAL
        then some (acc ++ times.map (fun t => ((sd + (off : ℤ), t), med, note)))
        else none) acc
      = some (acc ++ (List.range d).flatMap (fun off =>
          times.map (fun t => ((sd + (off : ℤ), t), med, note)))) := by
  induction d with
  | zero => intro acc; simp
  | succ d ih =>
    intro acc
    rw [List.range_succ, List.foldlM_append, ih (fun off hoff => h off (by omega)) acc]
    have hd := h d (by omega)
    simp [List.flatMap_append, hd, List.append_assoc]

/-- When every expanded date stays within Python's date range, the checked
expansion succeeds and returns exactly the entries of
`expand_schedule_to_datetime_entries`. -/
theorem expand_checked_in_range (s : MedicineSchedule)
    (h : ∀ off : ℕ, off < s.duration_days →
      DATE_MIN_ORDINAL ≤ s.start_date + (off : ℤ) ∧
        s.start_date + (off : ℤ) ≤ DATE_MAX_ORDINAL) :
    expand_checked s = some (expand_schedule_to_datetime_entries s) := by
  unfold expand_checked expand_schedule_to_datetime_entries
  simpa using expandChecked_aux s.start_date s.times s.medicine
    (pyOrString s.notes s.dose_pattern) s.duration_days h []

/-- C9 (counterexample): the source is not exception-free over all input
strings.  The well-formed text "9999999 days" parses to duration 9999999,
`generate_schedule_entries_for_medicine` keeps that duration unchanged, and
the expansion loop then overflows Python's bounded dates (modelled by
`expand_checked` returning `none`, the `OverflowError` of
`start_date + timedelta(days=day_offset)` past `date.max`). -/
theorem claim9_counterexample :
    _parse_duration_days "9999999 days" = some 9999999
    ∧ (generate_schedule_entries_for_medicine "Amoxicillin" "1-0-1" (some 9999999)
        (some 739000) none none 739000).duration_days = 9999999
    ∧ expand_checked (generate_schedule_entries_for_medicine "Amoxicillin" "1-0-1"
        (some 9999999) (some 739000) none none 739000) = none := by
  refine ⟨by decide, by decide, ?_⟩
  have hs : generate_schedule_entries_for_medicine "Amoxicillin" "1-0-1" (some 9999999)
      (some 739000) none none 739000 =
      ⟨"Amoxicillin", "1-0-1", 9999999, 739000, [DEFAULT_MORNING, DEFAULT_NIGHT], none⟩ := by
    decide
  rw [hs]
  unfold expand_checked
  apply foldlM_option_none _ _ 3000000 (List.mem_range.mpr (by norm_num))
  intro b
  dsimp only
  split
  · rename_i hcond
    exact absurd hcond (by decide)
  · rfl

/-- C9 (amended): the two parsers always return a record (`none` would model
an uncaught exception, and the only candidate — the `slot_names[idx]` indexing
— is proven in range), and the resolver returns a defined list for every
input, empty only for the empty pattern.  Expansion, however, is
exception-free only on schedules whose dates all stay within Python's date
range: under that bound the checked expansion returns exactly the entries of
`expand_schedule_to_datetime_entries`; outside it — reachable from the
parseable duration "9999999 days" — the source raises `OverflowError`. -/
theorem claim9_amended (text dp : String) (fb : Option String) (s : MedicineSchedule) :
    (parse_prescription_text text).isSome = true
    ∧ (parse_prescription_items text).isSome = true
    ∧ (map_dose_pattern_to_times dp fb ≠ [] ∨ dp = "")
    ∧ ((∀ off : ℕ, off < s.duration_days →
          DATE_MIN_ORDINAL ≤ s.start_date + (off : ℤ) ∧
            s.start_date + (off : ℤ) ≤ DATE_MAX_ORDINAL) →
        expand_checked s = some (expand_schedule_to_datetime_entries s)) := by
  refine ⟨parse_text_isSome text, parse_items_isSome text, ?_, expand_checked_in_range s⟩
  by_cases h : dp.data = []
  · exact Or.inr (String.ext (h.trans rfl))
  · exact Or.inl (map_dose_ne_nil dp fb h)

/-- C9 (witness): the amended statement instantiated at a concrete text and a
two-day schedule starting at a contemporary date ordinal. -/
theorem claim9_witness :
    (parse_prescription_text "Aspirin\n1-0-1\n5 days").isSome = true
    ∧ expand_checked ⟨"Med", "1-0-1", 2, 739000, [480, 1260], none⟩ =
        some (expand_schedule_to_datetime_entries
          ⟨"Med", "1-0-1", 2, 739000, [480, 1260], none⟩) := by
  have h := claim9_amended "Aspirin\n1-0-1\n5 days" "1-0-1" none
    ⟨"Med", "1-0-1", 2, 739000, [480, 1260], none⟩
  refine ⟨h.1, h.2.2.2 ?_⟩
  intro off hoff
  have h2 : off < 2 := hoff
  show DATE_MIN_ORDINAL ≤ (739000 : ℤ) + (off : ℤ) ∧
    (739000 : ℤ) + (off : ℤ) ≤ DATE_MAX_ORDINAL
  simp only [DATE_MIN_ORDINAL, DATE_MAX_ORDINAL]
  omega

/-! ## Claim C10: the two dose-digit policies -/

/-- A decimal digit character is not whitespace. -/
theorem digitChar_not_space (a : ℕ) (ha : a ≤ 9) :
    isSpaceChar (Nat.digitChar a) = false := by
  interval_cases a <;> decide

/-- A decimal digit character is unchanged by lowercasing. -/
theorem digitChar_lower (a : ℕ) (ha : a ≤ 9) :
    (Nat.digitChar a).toLower = Nat.digitChar a := by
  interval_cases a <;> decide

/-- A decimal digit character satisfies the regex class `[0-9]`. -/
theorem digitChar_isDigit (a : ℕ) (ha : a ≤ 9) :
    (Nat.digitChar a).isDigit = true := by
  interval_cases a <;> decide

/-- Converting a digit character back to a number is the identity. -/
theorem digitChar_val (a : ℕ) (ha : a ≤ 9) : digitVal (Nat.digitChar a) = a := by
  interval_cases a <;> decide

/-- A decimal digit character is not the hyphen. -/
theorem digitChar_ne_hyphen (a : ℕ) (ha : a ≤ 9) : ¬ Nat.digitChar a = '-' := by
  interval_cases a <;> decide

/-- A decimal digit character equals '1' exactly for the digit one. -/
theorem digitChar_eq_one_iff (a : ℕ) (ha : a ≤ 9) :
    (Nat.digitChar a = '1') ↔ a = 1 := by
  interval_cases a <;> decide

/-- Stripping a digit pattern is the identity: it has no outer whitespace. -/
theorem pyStrip_digits (a b c : ℕ) (ha : a ≤ 9) (_hb : b ≤ 9) (hc : c ≤ 9) :
    pyStrip [Nat.digitChar a, '-', Nat.digitChar b, '-', Nat.digitChar c] =
      [Nat.digitChar a, '-', Nat.digitChar b, '-', Nat.digitChar c] := by
  simp [pyStrip, List.dropWhile, digitChar_not_space a ha, digitChar_not_space c hc]

/-- The numeric-pattern matcher accepts every digit pattern `a-b-c` with
digits 0–9 and returns the three digit values. -/
theorem parse_numeric_digits (a b c : ℕ) (ha : a ≤ 9) (hb : b ≤ 9) (hc : c ≤ 9) :
    parse_numeric_pattern
        [Nat.digitChar a, '-', Nat.digitChar b, '-', Nat.digitChar c] =
      some [a, b, c] := by
  unfold parse_numeric_pattern
  rw [pyStrip_digits a b c ha hb hc]
  simp [digitChar_isDigit a ha, digitChar_isDigit b hb, digitChar_isDigit c hc,
    digitChar_val a ha, digitChar_val b hb, digitChar_val c hc]

/-- Normalising a digit pattern is the identity. -/
theorem normalize_digits (a b c : ℕ) (ha : a ≤ 9) (hb : b ≤ 9) (hc : c ≤ 9) :
    normalize_text [Nat.digitChar a, '-', Nat.digitChar b, '-', Nat.digitChar c] =
      [Nat.digitChar a, '-', Nat.digitChar b, '-', Nat.digitChar c] := by
  have hyl : ('-').toLower = '-' := by decide
  have hys : isSpaceChar '-' = false := by decide
  unfold normalize_text
  rw [pyStrip_digits a b c ha hb hc]
  simp [collapsePlusAux, hyl, hys, digitChar_lower a ha, digitChar_lower b hb,
    digitChar_lower c hc, digitChar_not_space a ha, digitChar_not_space b hb,
    digitChar_not_space c hc]

/-- The count-selection loop in explicit form: one canonical slot per nonzero
count. -/
theorem map_counts_explicit (x y z : ℕ) :
    map_counts_to_times [x, y, z] = nonzeroTimes x y z := by
  by_cases hx : x = 0 <;> by_cases hy : y = 0 <;> by_cases hz : z = 0 <;>
    simp [map_counts_to_times, nonzeroTimes, DEFAULT_MORNING, DEFAULT_AFTERNOON,
      DEFAULT_NIGHT, hx, hy, hz]

/-- At least one nonzero digit selects at least one slot. -/
theorem nonzeroTimes_ne_nil (x y z : ℕ) (h : ¬(x = 0 ∧ y = 0 ∧ z = 0)) :
    nonzeroTimes x y z ≠ [] := by
  by_cases hx : x = 0 <;> by_cases hy : y = 0 <;> by_cases hz : z = 0 <;>
    first
      | (simp [nonzeroTimes, hx, hy, hz]; tauto)
      | simp [nonzeroTimes, hx, hy, hz]

/-- Splitting a digit pattern at hyphens gives the three digit singletons. -/
theorem splitHyphen_digits (a b c : ℕ) (ha : a ≤ 9) (hb : b ≤ 9) (hc : c ≤ 9) :
    splitHyphen [Nat.digitChar a, '-', Nat.digitChar b, '-', Nat.digitChar c] =
      [[Nat.digitChar a], [Nat.digitChar b], [Nat.digitChar c]] := by
  simp [splitHyphen, digitChar_ne_hyphen a ha, digitChar_ne_hyphen b hb,
    digitChar_ne_hyphen c hc]

/-- The digit-position inference selects a slot exactly for the digit 1. -/
theorem inferTimes_digits (a b c : ℕ) (ha : a ≤ 9) (hb : b ≤ 9) (hc : c ≤ 9) :
    inferTimesFromDose (patStr10 a b c) = some (oneSlots a b c) := by
  show inferLoop 0 ((splitHyphen
    [Nat.digitChar a, '-', Nat.digitChar b, '-', Nat.digitChar c]).take 3) [] = _
  rw [splitHyphen_digits a b c ha hb hc]
  have hone : ("1".data : List Char) = ['1'] := rfl
  by_cases h1 : a = 1 <;> by_cases h2 : b = 1 <;> by_cases h3 : c = 1 <;>
    simp [inferLoop, slot_names, oneSlots, List.take, List.get?, hone, h1, h2, h3,
      digitChar_eq_one_iff a ha, digitChar_eq_one_iff b hb,
      digitChar_eq_one_iff c hc] <;>
    decide

/-- C10 (confirmed): the resolver's numeric strategy accepts every pattern
`a-b-c` with digits 0–9 and (when some digit is nonzero) selects a slot's
clock time exactly for each nonzero digit, while the parser's digit-position
inference selects a slot exactly for digits equal to 1 — so the two policies
disagree on digits ≥ 2, as "2-0-2" exhibits. -/
theorem claim10_two_policies (a b c : ℕ) (ha : a ≤ 9) (hb : b ≤ 9) (hc : c ≤ 9) :
    parse_numeric_pattern (patStr10 a b c).data = some [a, b, c]
    ∧ (¬(a = 0 ∧ b = 0 ∧ c = 0) →
        map_dose_pattern_to_times (patStr10 a b c) none = nonzeroTimes a b c)
    ∧ inferTimesFromDose (patStr10 a b c) = some (oneSlots a b c)
    ∧ map_dose_pattern_to_times "2-0-2" none = [DEFAULT_MORNING, DEFAULT_NIGHT]
    ∧ inferTimesFromDose "2-0-2" = some [] := by
  refine ⟨parse_numeric_digits a b c ha hb hc, ?_, inferTimes_digits a b c ha hb hc,
    by decide, by decide⟩
  intro h
  unfold map_dose_pattern_to_times
  rw [if_neg (by simp [patStr10])]
  dsimp only [patStr10]
  rw [normalize_digits a b c ha hb hc, parse_numeric_digits a b c ha hb hc]
  dsimp only
  rw [map_counts_explicit a b c, if_pos (nonzeroTimes_ne_nil a b c h)]

/-- C10 (witness): the policies instantiated at the digits of "2-0-2". -/
theorem claim10_witness :
    map_dose_pattern_to_times (patStr10 2 0 2) none = nonzeroTimes 2 0 2
    ∧ inferTimesFromDose (patStr10 2 0 2) = some (oneSlots 2 0 2) := by
  have h := claim10_two_policies 2 0 2 (by decide) (by decide) (by decide)
  exact ⟨h.2.1 (by decide), h.2.2.1⟩

end Prescripto
